import Mathlib

/-!
Shallow embedding of the todochainz hash-chain core (main.go).

A `Todo` mirrors the Go struct of the same name.  Go `time.Time` values are
modelled by `GoTime`, a value carrying the string that `time.Time.String()`
would print (the only observation of a timestamp the hash-chain core makes,
besides equality); `time.Now()` becomes an explicit parameter of every
operation that calls it.  Go `int` is modelled by `Int`; the conversion
`string(todo.Index)` (int → single-rune string, with invalid code points
collapsed to U+FFFD) is modelled bit-faithfully including the int32
truncation.  SHA-256 and the lowercase hex encoding are implemented in full
over byte lists, so `calculateHash` is the real digest of the real
serialization.
-/

/-- Model of Go `time.Time`: the value is observed only through equality and
through `String()`, whose output the field `str` carries. -/
structure GoTime where
  str : String
deriving DecidableEq

/-- The zero `time.Time` (`var t time.Time`), as printed by `String()`. -/
def zeroTime : GoTime := ⟨"0001-01-01 00:00:00 +0000 UTC"⟩

/-- Mirror of the Go struct `Todo` in main.go. -/
structure Todo where
  Index : Int
  Title : String
  Notes : String
  CreateStamp : GoTime
  UpdateStamp : GoTime
  CompleteStamp : GoTime
  DeleteStamp : GoTime
  Hash : String
  OrigHash : String
  PrevHash : String
deriving DecidableEq

/-- The Go zero value `var newTodo Todo`. -/
def Todo.zero : Todo :=
  { Index := 0, Title := "", Notes := "", CreateStamp := zeroTime,
    UpdateStamp := zeroTime, CompleteStamp := zeroTime, DeleteStamp := zeroTime,
    Hash := "", OrigHash := "", PrevHash := "" }

/-- Mirror of the Go struct `TodoMessage`. -/
structure TodoMessage where
  Title : String
  Notes : String
  OrigHash : String
deriving DecidableEq

/-- Mirror of the Go struct `TodoDetail`. -/
structure TodoDetail where
  OriginalTodo : Todo
  Updates : List Todo
deriving DecidableEq

/-- Go conversion int → rune: truncation to the signed 32-bit range. -/
def goRuneOfInt (i : Int) : Int :=
  (i + 2147483648).emod 4294967296 - 2147483648

/-- Go conversion `string(i)` for an integer `i`: the UTF-8 string of the
single code point `rune(i)`, where negative values, surrogate halves and
values above U+10FFFF yield the replacement character U+FFFD. -/
def goStringOfInt (i : Int) : String :=
  let r := goRuneOfInt i
  if r < 0 ∨ (55296 ≤ r ∧ r < 57344) ∨ 1114111 < r then "�"
  else String.singleton (Char.ofNat r.toNat)

/-! ### SHA-256 over byte lists (crypto/sha256 + encoding/hex) -/

/-- Truncation to a 32-bit word. -/
def w32 (n : Nat) : Nat := n % 4294967296

/-- Right rotation of a 32-bit word. -/
def rotr (x n : Nat) : Nat := w32 ((x >>> n) ||| (x <<< (32 - n)))

/-- UTF-8 encoding of one code point. -/
def utf8Bytes (c : Char) : List Nat :=
  let n := c.toNat
  if n < 128 then [n]
  else if n < 2048 then [192 + n / 64, 128 + n % 64]
  else if n < 65536 then [224 + n / 4096, 128 + (n / 64) % 64, 128 + n % 64]
  else [240 + n / 262144, 128 + (n / 4096) % 64, 128 + (n / 64) % 64, 128 + n % 64]

/-- Bytes of a string, as Go's `[]byte(s)` produces them. -/
def strToBytes (s : String) : List Nat := (s.data.map utf8Bytes).flatten

/-- SHA-256 round constants. -/
def shaK : List Nat :=
  [1116352408, 1899447441, 3049323471, 3921009573, 961987163, 1508970993,
   2453635748, 2870763221, 3624381080, 310598401, 607225278, 1426881987,
   1925078388, 2162078206, 2614888103, 3248222580, 3835390401, 4022224774,
   264347078, 604807628, 770255983, 1249150122, 1555081692, 1996064986,
   2554220882, 2821834349, 2952996808, 3210313671, 3336571891, 3584528711,
   113926993, 338241895, 666307205, 773529912, 1294757372, 1396182291,
   1695183700, 1986661051, 2177026350, 2456956037, 2730485921, 2820302411,
   3259730800, 3345764771, 3516065817, 3600352804, 4094571909, 275423344,
   430227734, 506948616, 659060556, 883997877, 958139571, 1322822218,
   1537002063, 1747873779, 1955562222, 2024104815, 2227730452, 2361852424,
   2428436474, 2756734187, 3204031479, 3329325298]

/-- SHA-256 initial hash state. -/
def shaH0 : List Nat :=
  [1779033703, 3144134277, 1013904242, 2773480762,
   1359893119, 2600822924, 528734635, 1541459225]

/-- Append the SHA-256 padding to a message. -/
def shaPad (msg : List Nat) : List Nat :=
  let len := msg.length
  let k := (64 - ((len + 9) % 64)) % 64
  let bits := len * 8
  msg ++ [128] ++ List.replicate k 0 ++
    [(bits >>> 56) % 256, (bits >>> 48) % 256, (bits >>> 40) % 256, (bits >>> 32) % 256,
     (bits >>> 24) % 256, (bits >>> 16) % 256, (bits >>> 8) % 256, bits % 256]

/-- Pack bytes into big-endian 32-bit words. -/
def toWords : List Nat → List Nat
  | a :: b :: c :: d :: rest => (((a * 256 + b) * 256 + c) * 256 + d) :: toWords rest
  | _ => []

/-- Split a word list into 16-word blocks. -/
def toBlocks : List Nat → List (List Nat)
  | w0 :: w1 :: w2 :: w3 :: w4 :: w5 :: w6 :: w7 ::
    w8 :: w9 :: w10 :: w11 :: w12 :: w13 :: w14 :: w15 :: rest =>
      [w0, w1, w2, w3, w4, w5, w6, w7, w8, w9, w10, w11, w12, w13, w14, w15] :: toBlocks rest
  | _ => []

/-- SHA-256 message schedule: extend 16 words to 64. -/
def shaSchedule (ws : List Nat) : List Nat :=
  (List.range 48).foldl
    (fun acc i =>
      let s0 := rotr (acc.getD (i + 1) 0) 7 ^^^ rotr (acc.getD (i + 1) 0) 18 ^^^ ((acc.getD (i + 1) 0) >>> 3)
      let s1 := rotr (acc.getD (i + 14) 0) 17 ^^^ rotr (acc.getD (i + 14) 0) 19 ^^^ ((acc.getD (i + 14) 0) >>> 10)
      acc ++ [w32 (acc.getD i 0 + s0 + acc.getD (i + 9) 0 + s1)])
    ws

/-- One SHA-256 compression round. -/
def shaRound (st : List Nat) (k w : Nat) : List Nat :=
  match st with
  | [a, b, c, d, e, f, g, h] =>
    let s1 := rotr e 6 ^^^ rotr e 11 ^^^ rotr e 25
    let ch := (e &&& f) ^^^ ((e ^^^ 4294967295) &&& g)
    let temp1 := w32 (h + s1 + ch + k + w)
    let s0 := rotr a 2 ^^^ rotr a 13 ^^^ rotr a 22
    let maj := (a &&& b) ^^^ (a &&& c) ^^^ (b &&& c)
    let temp2 := w32 (s0 + maj)
    [w32 (temp1 + temp2), a, b, c, w32 (d + temp1), e, f, g]
  | _ => st

/-- Compress one 16-word block into the running state. -/
def shaCompress (hs : List Nat) (block : List Nat) : List Nat :=
  let ws := shaSchedule block
  let st := (shaK.zip ws).foldl (fun st kw => shaRound st kw.1 kw.2) hs
  (hs.zip st).map (fun p => w32 (p.1 + p.2))

/-- SHA-256 digest of a byte list, as 32 bytes. -/
def sha256Bytes (msg : List Nat) : List Nat :=
  let hs := (toBlocks (toWords (shaPad msg))).foldl shaCompress shaH0
  (hs.map (fun w => [(w >>> 24) % 256, (w >>> 16) % 256, (w >>> 8) % 256, w % 256])).flatten

/-- Lowercase hex digit. -/
def hexDigit (n : Nat) : Char :=
  if n < 10 then Char.ofNat (48 + n) else Char.ofNat (87 + n)

/-- Lowercase hex encoding of bytes (encoding/hex). -/
def bytesToHex (bs : List Nat) : String :=
  String.mk ((bs.map (fun b => [hexDigit (b / 16), hexDigit (b % 16)])).flatten)

/-- `hex.EncodeToString(sha256(s))`. -/
def sha256hex (s : String) : String := bytesToHex (sha256Bytes (strToBytes s))

/-! ### The hash-chain core, translated line by line from main.go -/

/-- The string `calculateHash` feeds to SHA-256:
`string(todo.Index) + todo.Title + todo.Notes + todo.CreateStamp.String() + todo.PrevHash`. -/
def hashText (todo : Todo) : String :=
  goStringOfInt todo.Index ++ todo.Title ++ todo.Notes ++ todo.CreateStamp.str ++ todo.PrevHash

/-- `calculateHash` from main.go.  (The only error path in the source is a
failing `hash.Write`, which cannot occur; the model is total.) -/
def calculateHash (todo : Todo) : String := sha256hex (hashText todo)

/-- `generateBlock` from main.go.  `time.Now()` is the explicit parameter `t`.
The source fills a zero `Todo`, computes the hash, and only afterwards sets
`OrigHash` when the message carries one. -/
def generateBlock (oldTodo : Todo) (message : TodoMessage) (t : GoTime) : Todo :=
  let n1 : Todo := { Todo.zero with
    Index := oldTodo.Index + 1,
    CreateStamp := t,
    Title := message.Title,
    Notes := message.Notes,
    PrevHash := oldTodo.Hash }
  let n2 : Todo := { n1 with Hash := calculateHash n1 }
  if message.OrigHash ≠ "" then { n2 with OrigHash := message.OrigHash } else n2

/-- `isTodoValid` from main.go. -/
def isTodoValid (newTodo oldTodo : Todo) : Bool :=
  if oldTodo.Index + 1 ≠ newTodo.Index then false
  else if oldTodo.Hash ≠ newTodo.PrevHash then false
  else if calculateHash newTodo ≠ newTodo.Hash then false
  else true

/-- `findTodo` from main.go: first record whose `Hash` matches, else the
"original todo not found" error (modelled as `none`). -/
def findTodo (hash : String) (chain : List Todo) : Option Todo :=
  match chain with
  | [] => none
  | td :: rest => if td.Hash == hash then some td else findTodo hash rest

/-- The `for _, td := range chain` loop of `loadTodoDetail`, with the
accumulating `todoDetail` made explicit. -/
def loadTodoDetailLoop (hash : String) (chain : List Todo) (acc : TodoDetail) : TodoDetail :=
  match chain with
  | [] => acc
  | td :: rest =>
      let acc1 := if td.Hash == hash then { acc with OriginalTodo := td } else acc
      let acc2 := if td.OrigHash == hash then { acc1 with Updates := acc1.Updates ++ [td] } else acc1
      loadTodoDetailLoop hash rest acc2

/-- `loadTodoDetail` from main.go: scan the chain, then report
"original todo not found" (modelled as `none`) when the accumulated
`OriginalTodo.Hash` is still empty. -/
def loadTodoDetail (hash : String) (chain : List Todo) : Option TodoDetail :=
  let todoDetail := loadTodoDetailLoop hash chain ⟨Todo.zero, []⟩
  if todoDetail.OriginalTodo.Hash == "" then none else some todoDetail

/-- `replaceChain` from main.go, as a function of the candidate and the
current global `TodoChain`; the subsequent `saveFile` is the opaque
persistence collaborator and does not touch the in-memory chain. -/
def replaceChain (newTodos : List Todo) (todoChain : List Todo) : List Todo :=
  if newTodos.length > todoChain.length then newTodos else todoChain

/-- The append step shared by all four mutation handlers:
`if isTodoValid(newTodo, tip) { replaceChain(append(TodoChain, newTodo)) }`. -/
def storeCandidate (chain : List Todo) (tip newTodo : Todo) : List Todo :=
  if isTodoValid newTodo tip then replaceChain (chain ++ [newTodo]) chain else chain

/-- What a mutation handler sends back: the chain state it leaves behind, the
HTTP status it writes, and the JSON body (always the candidate record). -/
structure HandlerResult where
  chain : List Todo
  status : Nat
  body : Todo
deriving DecidableEq

/-- The tail of `handleCreateTodo`: store the candidate if valid, then
respond `201 Created` with the candidate either way. -/
def createResult (chain : List Todo) (tip newTodo : Todo) : HandlerResult :=
  ⟨storeCandidate chain tip newTodo, 201, newTodo⟩

/-- `handleCreateTodo` from main.go, after a successfully decoded message.
`TodoChain[len(TodoChain)-1]` panics on an empty chain (`none`). -/
def handleCreateTodo (chain : List Todo) (m : TodoMessage) (t : GoTime) :
    Option HandlerResult :=
  match chain.getLast? with
  | none => none
  | some tip => some (createResult chain tip (generateBlock tip m t))

/-- `handleUpdateTodo` from main.go: the URL hash is forced into
`m.OrigHash`, the block is generated from the tip, `UpdateStamp` is set
afterwards, and the response is `200 OK` with the candidate either way.
No lookup of the target hash happens. -/
def handleUpdateTodo (chain : List Todo) (hash : String) (m : TodoMessage)
    (tGen tUpd : GoTime) : Option HandlerResult :=
  match chain.getLast? with
  | none => none
  | some tip =>
      let m1 : TodoMessage := { m with OrigHash := hash }
      let u1 := generateBlock tip m1 tGen
      let updateTodo := { u1 with UpdateStamp := tUpd }
      some ⟨storeCandidate chain tip updateTodo, 200, updateTodo⟩

/-- `handleCompleteTodo` from main.go.  When `findTodo` fails the handler
writes a 404 header but does not return; the next line dereferences the nil
`originalTodo` pointer and the request panics (modelled as `none`). -/
def handleCompleteTodo (chain : List Todo) (hash : String)
    (tGen tStamp : GoTime) : Option HandlerResult :=
  match findTodo hash chain with
  | none => none
  | some originalTodo =>
      match chain.getLast? with
      | none => none
      | some tip =>
          let m : TodoMessage := ⟨originalTodo.Title, originalTodo.Notes, hash⟩
          let c1 := generateBlock tip m tGen
          let completeTodo := { c1 with
            DeleteStamp := originalTodo.DeleteStamp,
            UpdateStamp := tStamp,
            CompleteStamp := tStamp }
          some ⟨storeCandidate chain tip completeTodo, 200, completeTodo⟩

/-- `handleDeleteTodo` from main.go; same shape as `handleCompleteTodo` with
the `CompleteStamp`/`DeleteStamp` roles swapped, including the missing
`return` after the 404 header (`none` = panic). -/
def handleDeleteTodo (chain : List Todo) (hash : String)
    (tGen tStamp : GoTime) : Option HandlerResult :=
  match findTodo hash chain with
  | none => none
  | some originalTodo =>
      match chain.getLast? with
      | none => none
      | some tip =>
          let m : TodoMessage := ⟨originalTodo.Title, originalTodo.Notes, hash⟩
          let c1 := generateBlock tip m tGen
          let deleteTodo := { c1 with
            CompleteStamp := originalTodo.CompleteStamp,
            UpdateStamp := tStamp,
            DeleteStamp := tStamp }
          some ⟨storeCandidate chain tip deleteTodo, 200, deleteTodo⟩

/-- The genesis record built in `main` on first startup. -/
def genesisTodo (t : GoTime) : Todo :=
  let g : Todo := { Todo.zero with
    Index := 0, Title := "Genesis Todo", Notes := "Genesis Notes", CreateStamp := t }
  { g with Hash := calculateHash g }

/-- Chain states reachable from a fresh genesis chain through the four
mutation handlers (each `GoTime` parameter is one `time.Now()` call). -/
inductive Reachable : List Todo → Prop where
  | genesis (t : GoTime) : Reachable [genesisTodo t]
  | create (c : List Todo) (m : TodoMessage) (t : GoTime) (res : HandlerResult) :
      Reachable c → handleCreateTodo c m t = some res → Reachable res.chain
  | update (c : List Todo) (hash : String) (m : TodoMessage) (tGen tUpd : GoTime)
      (res : HandlerResult) :
      Reachable c → handleUpdateTodo c hash m tGen tUpd = some res → Reachable res.chain
  | complete (c : List Todo) (hash : String) (tGen tStamp : GoTime) (res : HandlerResult) :
      Reachable c → handleCompleteTodo c hash tGen tStamp = some res → Reachable res.chain
  | delete (c : List Todo) (hash : String) (tGen tStamp : GoTime) (res : HandlerResult) :
      Reachable c → handleDeleteTodo c hash tGen tStamp = some res → Reachable res.chain

/-! ### Helper lemmas -/

/-- The hash input reads only `Index`, `Title`, `Notes`, `CreateStamp` and
`PrevHash`; rewriting the other five fields leaves it unchanged. -/
theorem hashText_irrelevant (r : Todo) (h o : String) (u c d : GoTime) :
    hashText { r with Hash := h, OrigHash := o, UpdateStamp := u,
                      CompleteStamp := c, DeleteStamp := d } = hashText r := rfl

theorem calculateHash_irrelevant (r : Todo) (h o : String) (u c d : GoTime) :
    calculateHash { r with Hash := h, OrigHash := o, UpdateStamp := u,
                           CompleteStamp := c, DeleteStamp := d } = calculateHash r := rfl

theorem calculateHash_set_Hash (r : Todo) (h : String) :
    calculateHash { r with Hash := h } = calculateHash r := rfl

theorem calculateHash_set_OrigHash (r : Todo) (o : String) :
    calculateHash { r with OrigHash := o } = calculateHash r := rfl

theorem calculateHash_set_UpdateStamp (r : Todo) (u : GoTime) :
    calculateHash { r with UpdateStamp := u } = calculateHash r := rfl

theorem calculateHash_set_CompleteStamp (r : Todo) (c : GoTime) :
    calculateHash { r with CompleteStamp := c } = calculateHash r := rfl

theorem calculateHash_set_DeleteStamp (r : Todo) (d : GoTime) :
    calculateHash { r with DeleteStamp := d } = calculateHash r := rfl

/-- `calculateHash` reads a record only through `Index`, `Title`, `Notes`,
`CreateStamp` and `PrevHash`. -/
theorem calculateHash_mk (i : Int) (ti no : String) (cs u1 c1 d1 u2 c2 d2 : GoTime)
    (h1 o1 h2 o2 p : String) :
    calculateHash (Todo.mk i ti no cs u1 c1 d1 h1 o1 p) =
      calculateHash (Todo.mk i ti no cs u2 c2 d2 h2 o2 p) := rfl

/-- The record `generateBlock` feeds to `calculateHash`: everything is in
place except `Hash` and `OrigHash`. -/
def preHashBlock (oldTodo : Todo) (m : TodoMessage) (t : GoTime) : Todo :=
  { Todo.zero with
    Index := oldTodo.Index + 1, CreateStamp := t,
    Title := m.Title, Notes := m.Notes, PrevHash := oldTodo.Hash }

/-- Closed form of `generateBlock`: both branches of its final `if` produce
this record (when `message.OrigHash` is empty, writing it changes nothing). -/
theorem generateBlock_eq (oldTodo : Todo) (m : TodoMessage) (t : GoTime) :
    generateBlock oldTodo m t =
      { Index := oldTodo.Index + 1, Title := m.Title, Notes := m.Notes,
        CreateStamp := t, UpdateStamp := zeroTime, CompleteStamp := zeroTime,
        DeleteStamp := zeroTime,
        Hash := calculateHash (preHashBlock oldTodo m t),
        OrigHash := m.OrigHash, PrevHash := oldTodo.Hash } := by
  unfold generateBlock preHashBlock
  split_ifs with h
  · rfl
  · rw [not_ne_iff.mp h]
    rfl

/-- `calculateHash` is a function of the five hashed fields alone. -/
theorem calculateHash_fields (r s : Todo) (hI : r.Index = s.Index)
    (hT : r.Title = s.Title) (hN : r.Notes = s.Notes)
    (hC : r.CreateStamp = s.CreateStamp) (hP : r.PrevHash = s.PrevHash) :
    calculateHash r = calculateHash s := by
  unfold calculateHash hashText
  rw [hI, hT, hN, hC, hP]

/-- `isTodoValid` succeeds exactly when the three chain invariants hold. -/
theorem isTodoValid_iff (newTodo oldTodo : Todo) :
    isTodoValid newTodo oldTodo = true ↔
      newTodo.Index = oldTodo.Index + 1 ∧ newTodo.PrevHash = oldTodo.Hash ∧
        newTodo.Hash = calculateHash newTodo := by
  unfold isTodoValid
  by_cases h1 : oldTodo.Index + 1 ≠ newTodo.Index
  · rw [if_pos h1]
    exact iff_of_false (by simp) fun hc => h1 hc.1.symm
  · rw [if_neg h1]
    by_cases h2 : oldTodo.Hash ≠ newTodo.PrevHash
    · rw [if_pos h2]
      exact iff_of_false (by simp) fun hc => h2 hc.2.1.symm
    · rw [if_neg h2]
      by_cases h3 : calculateHash newTodo ≠ newTodo.Hash
      · rw [if_pos h3]
        exact iff_of_false (by simp) fun hc => h3 hc.2.2.symm
      · rw [if_neg h3]
        exact iff_of_true rfl
          ⟨(not_ne_iff.mp h1).symm, (not_ne_iff.mp h2).symm, (not_ne_iff.mp h3).symm⟩

/-- Re-setting the four fields the validity check never reads does not
change the verdict. -/
theorem isTodoValid_set_UpdateStamp (cand tip : Todo) (v : GoTime) :
    isTodoValid { cand with UpdateStamp := v } tip = isTodoValid cand tip := by
  unfold isTodoValid
  rw [calculateHash_set_UpdateStamp]

theorem isTodoValid_set_CompleteStamp (cand tip : Todo) (v : GoTime) :
    isTodoValid { cand with CompleteStamp := v } tip = isTodoValid cand tip := by
  unfold isTodoValid
  rw [calculateHash_set_CompleteStamp]

theorem isTodoValid_set_DeleteStamp (cand tip : Todo) (v : GoTime) :
    isTodoValid { cand with DeleteStamp := v } tip = isTodoValid cand tip := by
  unfold isTodoValid
  rw [calculateHash_set_DeleteStamp]

theorem isTodoValid_set_OrigHash (cand tip : Todo) (v : String) :
    isTodoValid { cand with OrigHash := v } tip = isTodoValid cand tip := by
  unfold isTodoValid
  rw [calculateHash_set_OrigHash]

/-- A block generated from the tip always passes `isTodoValid` against that
tip: its hash was computed before `OrigHash` was filled in, and `OrigHash`
is outside the hash input. -/
theorem generateBlock_valid (oldTodo : Todo) (m : TodoMessage) (t : GoTime) :
    isTodoValid (generateBlock oldTodo m t) oldTodo = true := by
  rw [isTodoValid_iff, generateBlock_eq]
  exact ⟨rfl, rfl, calculateHash_mk _ _ _ _ _ _ _ _ _ _ _ _ _ _ _⟩

/-- `replaceChain` installs any candidate that is one record longer. -/
theorem replaceChain_append (chain : List Todo) (cand : Todo) :
    replaceChain (chain ++ [cand]) chain = chain ++ [cand] := by
  unfold replaceChain
  simp

/-- `storeCandidate` either appends a candidate that passed validation or
leaves the chain alone. -/
theorem storeCandidate_valid (chain : List Todo) (tip cand : Todo)
    (h : isTodoValid cand tip = true) :
    storeCandidate chain tip cand = chain ++ [cand] := by
  unfold storeCandidate
  rw [h, if_pos rfl, replaceChain_append]

theorem storeCandidate_invalid (chain : List Todo) (tip cand : Todo)
    (h : isTodoValid cand tip = false) :
    storeCandidate chain tip cand = chain := by
  unfold storeCandidate
  rw [h]
  rfl

theorem storeCandidate_cases (chain : List Todo) (tip cand : Todo) :
    storeCandidate chain tip cand = chain ∨
      (isTodoValid cand tip = true ∧ storeCandidate chain tip cand = chain ++ [cand]) := by
  cases h : isTodoValid cand tip
  · exact Or.inl (storeCandidate_invalid chain tip cand h)
  · exact Or.inr ⟨rfl, storeCandidate_valid chain tip cand h⟩

/-! ### Concrete fixtures for witnesses and counterexamples -/

/-- A `time.Now()` sample for the genesis record. -/
def timeT : GoTime := ⟨"t0"⟩

/-- A `time.Now()` sample for a first mutation. -/
def timeA : GoTime := ⟨"t1"⟩

/-- A `time.Now()` sample for a stamp written after block generation. -/
def timeB : GoTime := ⟨"t2"⟩

/-- A timestamp distinct from every other fixture time. -/
def timeU : GoTime := ⟨"u0"⟩

/-- A create message. -/
def msgW : TodoMessage := ⟨"Buy milk", "2%", ""⟩

/-- A fresh genesis tip. -/
def tipW : Todo := genesisTodo timeT

/-- The chain right after first startup. -/
def chainW : List Todo := [tipW]

/-- The candidate `handleCreateTodo` would build on `chainW`. -/
def candW : Todo := generateBlock tipW msgW timeA

/-- A hash matching no record of `chainW`. -/
def missingHash : String := "zzz"

/-! ### C3 -/

/-- C3: `replaceChain` installs the candidate iff it is strictly longer than
the current chain; a shorter-or-equal candidate leaves the chain exactly as
it was. -/
theorem C3_replaceChain_spec (cand cur : List Todo) :
    (cand.length > cur.length → replaceChain cand cur = cand) ∧
      (cand.length ≤ cur.length → replaceChain cand cur = cur) := by
  constructor
  · intro h
    unfold replaceChain
    rw [if_pos h]
  · intro h
    unfold replaceChain
    rw [if_neg (not_lt.mpr h)]

/-- Witness for C3 at concrete chains: an equal-length (here shorter)
candidate is ignored and a longer one is installed. -/
theorem C3_replaceChain_spec_witness :
    replaceChain [] [Todo.zero] = [Todo.zero] ∧
      replaceChain [Todo.zero, Todo.zero] [Todo.zero] = [Todo.zero, Todo.zero] :=
  ⟨(C3_replaceChain_spec [] [Todo.zero]).2 (by decide),
   (C3_replaceChain_spec [Todo.zero, Todo.zero] [Todo.zero]).1 (by decide)⟩

/-! ### C8 -/

/-- C8: a block generated from any tip carries the tip's sequence number
plus one, links to the tip's hash, and its `Hash` field is the content hash
of the constructed record itself. -/
theorem C8_generateBlock_spec (oldTodo : Todo) (m : TodoMessage) (t : GoTime) :
    (generateBlock oldTodo m t).Index = oldTodo.Index + 1 ∧
      (generateBlock oldTodo m t).PrevHash = oldTodo.Hash ∧
      (generateBlock oldTodo m t).Hash = calculateHash (generateBlock oldTodo m t) := by
  rw [generateBlock_eq]
  exact ⟨rfl, rfl, calculateHash_mk _ _ _ _ _ _ _ _ _ _ _ _ _ _ _⟩

/-! ### C5 -/

/-- C5, counterexample to the claimed exclusion set: these two records agree
on `Hash` and `OrigHash` and differ in `UpdateStamp` — a field outside the
claimed `selfHash`/`originalHash` pair — yet their content hashes coincide,
so the excluded field set is strictly larger than claimed. -/
theorem C5_counterexample :
    calculateHash { Todo.zero with UpdateStamp := timeU } = calculateHash Todo.zero ∧
      ({ Todo.zero with UpdateStamp := timeU }).UpdateStamp ≠ Todo.zero.UpdateStamp ∧
      ({ Todo.zero with UpdateStamp := timeU }).Hash = Todo.zero.Hash ∧
      ({ Todo.zero with UpdateStamp := timeU }).OrigHash = Todo.zero.OrigHash :=
  ⟨calculateHash_mk _ _ _ _ _ _ _ _ _ _ _ _ _ _ _, by decide, rfl, rfl⟩

/-- C5 as amended: the hash is deterministic, it ignores `Hash`,
`OrigHash`, `UpdateStamp`, `CompleteStamp` and `DeleteStamp`, and each of
the five remaining fields genuinely feeds the hash input. -/
theorem C5_calculateHash_spec :
    (∀ r s : Todo, r = s → calculateHash r = calculateHash s) ∧
      (∀ (r : Todo) (h o : String) (u c d : GoTime),
        calculateHash { r with Hash := h, OrigHash := o, UpdateStamp := u,
                               CompleteStamp := c, DeleteStamp := d } = calculateHash r) ∧
      (∃ (r : Todo) (v : Int), v ≠ r.Index ∧ hashText { r with Index := v } ≠ hashText r) ∧
      (∃ (r : Todo) (v : String), v ≠ r.Title ∧ hashText { r with Title := v } ≠ hashText r) ∧
      (∃ (r : Todo) (v : String), v ≠ r.Notes ∧ hashText { r with Notes := v } ≠ hashText r) ∧
      (∃ (r : Todo) (v : GoTime), v ≠ r.CreateStamp ∧
        hashText { r with CreateStamp := v } ≠ hashText r) ∧
      (∃ (r : Todo) (v : String), v ≠ r.PrevHash ∧
        hashText { r with PrevHash := v } ≠ hashText r) := by
  refine ⟨fun r s h => h ▸ rfl, fun r h o u c d => calculateHash_irrelevant r h o u c d,
    ⟨Todo.zero, 65, by decide, by decide⟩, ⟨Todo.zero, "q", by decide, by decide⟩,
    ⟨Todo.zero, "q", by decide, by decide⟩, ⟨Todo.zero, timeU, by decide, by decide⟩,
    ⟨Todo.zero, "q", by decide, by decide⟩⟩

/-- Witness for C5's determinism conjunct at a concrete record. -/
theorem C5_calculateHash_spec_witness :
    calculateHash Todo.zero = calculateHash Todo.zero :=
  C5_calculateHash_spec.1 Todo.zero Todo.zero rfl

/-! ### C10 -/

/-- Title "ab" with notes "c": concatenates like title "a" with notes "bc". -/
def r10a : Todo := { Todo.zero with Title := "ab", Notes := "c" }

/-- Title "a" with notes "bc". -/
def r10b : Todo := { Todo.zero with Title := "a", Notes := "bc" }

/-- Sequence number 0xD800, an invalid (surrogate) code point. -/
def r10c : Todo := { Todo.zero with Index := 55296 }

/-- Sequence number 0xD801, a different invalid code point. -/
def r10d : Todo := { Todo.zero with Index := 55297 }

/-- C10: the serialization fed to SHA-256 is not injective — the
title/notes boundary is lost under concatenation, and `string(Index)` sends
every invalid code point to U+FFFD — so records differing in title/notes, or
only in sequence number, can share a digest. -/
theorem C10_hash_collisions :
    (r10a.Title ≠ r10b.Title ∧ r10a.Notes ≠ r10b.Notes ∧
      calculateHash r10a = calculateHash r10b) ∧
    (r10c.Index ≠ r10d.Index ∧ { r10c with Index := r10d.Index } = r10d ∧
      calculateHash r10c = calculateHash r10d) :=
  ⟨⟨by decide, by decide, congrArg sha256hex (by decide : hashText r10a = hashText r10b)⟩,
   ⟨by decide, by decide, congrArg sha256hex (by decide : hashText r10c = hashText r10d)⟩⟩

/-! ### C6 -/

/-- A candidate that fails validation against `tipW` (wrong sequence number). -/
def badCand : Todo := { Todo.zero with Index := 99 }

/-- C6, counterexample to "the caller is informed the candidate was
rejected": a rejected candidate and a stored one get responses of the same
shape — status 201 with the candidate as body — so the response carries no
rejection signal; only the chain state differs. -/
theorem C6_counterexample :
    isTodoValid badCand tipW = false ∧
      createResult chainW tipW badCand = ⟨chainW, 201, badCand⟩ ∧
      isTodoValid candW tipW = true ∧
      createResult chainW tipW candW = ⟨chainW ++ [candW], 201, candW⟩ ∧
      (createResult chainW tipW badCand).status = (createResult chainW tipW candW).status := by
  have hbad : isTodoValid badCand tipW = false := by decide
  refine ⟨hbad, ?_, generateBlock_valid tipW msgW timeA, ?_, rfl⟩
  · unfold createResult
    rw [storeCandidate_invalid chainW tipW badCand hbad]
  · unfold createResult
    rw [storeCandidate_valid chainW tipW candW (generateBlock_valid tipW msgW timeA)]

/-- C6 as amended: on a candidate failing `isTodoValid` the chain is left
exactly unchanged and the candidate is still returned, but with the same
success status (201) used for a stored candidate, so the caller is not
explicitly told the append was rejected. -/
theorem C6_reject_spec (chain : List Todo) (tip cand : Todo)
    (h : isTodoValid cand tip = false) :
    createResult chain tip cand = ⟨chain, 201, cand⟩ := by
  unfold createResult
  rw [storeCandidate_invalid chain tip cand h]

/-- Witness for C6 at the concrete rejected candidate. -/
theorem C6_reject_spec_witness :
    createResult chainW tipW badCand = ⟨chainW, 201, badCand⟩ :=
  C6_reject_spec chainW tipW badCand (by decide)

/-! ### C1 -/

/-- C1, counterexample to "mutating any one field of a valid candidate
flips the result to false": `candW` is valid against `tipW`, and changing
its `UpdateStamp` (really changing it — the old and new values differ)
leaves it valid, because the validity check never reads that field. -/
theorem C1_counterexample :
    isTodoValid candW tipW = true ∧
      ({ candW with UpdateStamp := timeU }).UpdateStamp ≠ candW.UpdateStamp ∧
      isTodoValid { candW with UpdateStamp := timeU } tipW = true := by
  refine ⟨generateBlock_valid tipW msgW timeA, by decide, ?_⟩
  rw [isTodoValid_set_UpdateStamp]
  exact generateBlock_valid tipW msgW timeA

/-- C1 as amended.  `isTodoValid` is true iff the three invariants hold.
Mutating the directly-checked fields (`Index`, `PrevHash`, `Hash`) of a
valid candidate flips it to false.  Mutating `UpdateStamp`,
`CompleteStamp`, `DeleteStamp` or `OrigHash` never changes the verdict.
Mutating `Title`, `Notes` or `CreateStamp` flips a valid candidate to false
whenever the mutated record's content hash differs from the original's
(which SHA-256 collision resistance makes overwhelmingly likely, but which
is not absolute). -/
theorem C1_isTodoValid_spec :
    (∀ cand tip : Todo, isTodoValid cand tip = true ↔
      cand.Index = tip.Index + 1 ∧ cand.PrevHash = tip.Hash ∧
        cand.Hash = calculateHash cand) ∧
    (∀ cand tip : Todo, isTodoValid cand tip = true → ∀ i : Int, i ≠ cand.Index →
      isTodoValid { cand with Index := i } tip = false) ∧
    (∀ cand tip : Todo, isTodoValid cand tip = true → ∀ s : String, s ≠ cand.PrevHash →
      isTodoValid { cand with PrevHash := s } tip = false) ∧
    (∀ cand tip : Todo, isTodoValid cand tip = true → ∀ s : String, s ≠ cand.Hash →
      isTodoValid { cand with Hash := s } tip = false) ∧
    (∀ (cand tip : Todo) (v : GoTime),
      isTodoValid { cand with UpdateStamp := v } tip = isTodoValid cand tip) ∧
    (∀ (cand tip : Todo) (v : GoTime),
      isTodoValid { cand with CompleteStamp := v } tip = isTodoValid cand tip) ∧
    (∀ (cand tip : Todo) (v : GoTime),
      isTodoValid { cand with DeleteStamp := v } tip = isTodoValid cand tip) ∧
    (∀ (cand tip : Todo) (v : String),
      isTodoValid { cand with OrigHash := v } tip = isTodoValid cand tip) ∧
    (∀ cand tip : Todo, isTodoValid cand tip = true → ∀ s : String,
      calculateHash { cand with Title := s } ≠ calculateHash cand →
      isTodoValid { cand with Title := s } tip = false) ∧
    (∀ cand tip : Todo, isTodoValid cand tip = true → ∀ s : String,
      calculateHash { cand with Notes := s } ≠ calculateHash cand →
      isTodoValid { cand with Notes := s } tip = false) ∧
    (∀ cand tip : Todo, isTodoValid cand tip = true → ∀ v : GoTime,
      calculateHash { cand with CreateStamp := v } ≠ calculateHash cand →
      isTodoValid { cand with CreateStamp := v } tip = false) := by
  refine ⟨isTodoValid_iff, ?_, ?_, ?_, isTodoValid_set_UpdateStamp,
    isTodoValid_set_CompleteStamp, isTodoValid_set_DeleteStamp, isTodoValid_set_OrigHash,
    ?_, ?_, ?_⟩
  · intro cand tip h i hne
    cases hv : isTodoValid { cand with Index := i } tip
    · rfl
    · obtain ⟨a, -, -⟩ := (isTodoValid_iff _ _).mp hv
      obtain ⟨a0, -, -⟩ := (isTodoValid_iff _ _).mp h
      exact absurd (a.trans a0.symm) hne
  · intro cand tip h s hne
    cases hv : isTodoValid { cand with PrevHash := s } tip
    · rfl
    · obtain ⟨-, b, -⟩ := (isTodoValid_iff _ _).mp hv
      obtain ⟨-, b0, -⟩ := (isTodoValid_iff _ _).mp h
      exact absurd (b.trans b0.symm) hne
  · intro cand tip h s hne
    cases hv : isTodoValid { cand with Hash := s } tip
    · rfl
    · obtain ⟨-, -, c⟩ := (isTodoValid_iff _ _).mp hv
      obtain ⟨-, -, c0⟩ := (isTodoValid_iff _ _).mp h
      exact absurd (c.trans ((calculateHash_set_Hash cand s).trans c0.symm)) hne
  · intro cand tip h s hdiff
    cases hv : isTodoValid { cand with Title := s } tip
    · rfl
    · obtain ⟨-, -, c⟩ := (isTodoValid_iff _ _).mp hv
      obtain ⟨-, -, c0⟩ := (isTodoValid_iff _ _).mp h
      exact absurd (c.symm.trans c0) hdiff
  · intro cand tip h s hdiff
    cases hv : isTodoValid { cand with Notes := s } tip
    · rfl
    · obtain ⟨-, -, c⟩ := (isTodoValid_iff _ _).mp hv
      obtain ⟨-, -, c0⟩ := (isTodoValid_iff _ _).mp h
      exact absurd (c.symm.trans c0) hdiff
  · intro cand tip h v hdiff
    cases hv : isTodoValid { cand with CreateStamp := v } tip
    · rfl
    · obtain ⟨-, -, c⟩ := (isTodoValid_iff _ _).mp hv
      obtain ⟨-, -, c0⟩ := (isTodoValid_iff _ _).mp h
      exact absurd (c.symm.trans c0) hdiff

/-- Witness for C1 at a concrete valid pair: a wrong sequence number is
rejected, and rewriting `OrigHash` leaves the verdict untouched. -/
theorem C1_isTodoValid_spec_witness :
    isTodoValid { candW with Index := 42 } tipW = false ∧
      isTodoValid { candW with OrigHash := missingHash } tipW = isTodoValid candW tipW :=
  ⟨C1_isTodoValid_spec.2.1 candW tipW (generateBlock_valid tipW msgW timeA) 42 (by decide),
   C1_isTodoValid_spec.2.2.2.2.2.2.2.1 candW tipW missingHash⟩

/-! ### Handler characterizations -/

/-- Restamping a generated block (as the complete/delete handlers do) does
not change its validity: none of the three stamps is in the hash input or
in the checks. -/
theorem isTodoValid_restamp (g tip : Todo) (u c d : GoTime) :
    isTodoValid { g with DeleteStamp := d, UpdateStamp := u, CompleteStamp := c } tip =
      isTodoValid g tip := by
  unfold isTodoValid
  rw [calculateHash_fields
    { g with DeleteStamp := d, UpdateStamp := u, CompleteStamp := c } g rfl rfl rfl rfl rfl]

/-- On a nonempty chain, `handleUpdateTodo` always appends: it performs no
lookup of the target hash, generates a block from the tip, stamps it, and
the generated block always validates. -/
theorem handleUpdateTodo_eq (chain : List Todo) (hash : String) (m : TodoMessage)
    (tGen tUpd : GoTime) (tip : Todo) (h : chain.getLast? = some tip) :
    handleUpdateTodo chain hash m tGen tUpd =
      some ⟨chain ++ [{ generateBlock tip { m with OrigHash := hash } tGen with
                        UpdateStamp := tUpd }], 200,
            { generateBlock tip { m with OrigHash := hash } tGen with UpdateStamp := tUpd }⟩ := by
  have hv : isTodoValid
      { generateBlock tip { m with OrigHash := hash } tGen with UpdateStamp := tUpd } tip = true := by
    rw [isTodoValid_set_UpdateStamp]
    exact generateBlock_valid _ _ _
  simp only [handleUpdateTodo, h]
  rw [storeCandidate_valid _ _ _ hv]

/-- When the target hash resolves, `handleCompleteTodo` appends the
restamped block. -/
theorem handleCompleteTodo_eq (chain : List Todo) (hash : String) (tGen tStamp : GoTime)
    (orig tip : Todo) (hf : findTodo hash chain = some orig)
    (h : chain.getLast? = some tip) :
    handleCompleteTodo chain hash tGen tStamp =
      some ⟨chain ++ [{ generateBlock tip ⟨orig.Title, orig.Notes, hash⟩ tGen with
                        DeleteStamp := orig.DeleteStamp, UpdateStamp := tStamp,
                        CompleteStamp := tStamp }], 200,
            { generateBlock tip ⟨orig.Title, orig.Notes, hash⟩ tGen with
              DeleteStamp := orig.DeleteStamp, UpdateStamp := tStamp,
              CompleteStamp := tStamp }⟩ := by
  have hv : isTodoValid
      { generateBlock tip ⟨orig.Title, orig.Notes, hash⟩ tGen with
        DeleteStamp := orig.DeleteStamp, UpdateStamp := tStamp, CompleteStamp := tStamp }
      tip = true := by
    rw [isTodoValid_restamp]
    exact generateBlock_valid _ _ _
  simp only [handleCompleteTodo, hf, h]
  rw [storeCandidate_valid _ _ _ hv]

/-- When the target hash resolves, `handleDeleteTodo` appends the restamped
block. -/
theorem handleDeleteTodo_eq (chain : List Todo) (hash : String) (tGen tStamp : GoTime)
    (orig tip : Todo) (hf : findTodo hash chain = some orig)
    (h : chain.getLast? = some tip) :
    handleDeleteTodo chain hash tGen tStamp =
      some ⟨chain ++ [{ generateBlock tip ⟨orig.Title, orig.Notes, hash⟩ tGen with
                        CompleteStamp := orig.CompleteStamp, UpdateStamp := tStamp,
                        DeleteStamp := tStamp }], 200,
            { generateBlock tip ⟨orig.Title, orig.Notes, hash⟩ tGen with
              CompleteStamp := orig.CompleteStamp, UpdateStamp := tStamp,
              DeleteStamp := tStamp }⟩ := by
  have hv : isTodoValid
      { generateBlock tip ⟨orig.Title, orig.Notes, hash⟩ tGen with
        CompleteStamp := orig.CompleteStamp, UpdateStamp := tStamp, DeleteStamp := tStamp }
      tip = true := by
    rw [isTodoValid_restamp]
    exact generateBlock_valid _ _ _
  simp only [handleDeleteTodo, hf, h]
  rw [storeCandidate_valid _ _ _ hv]

/-- A handler that dereferences a missing target panics (complete). -/
theorem handleCompleteTodo_none (chain : List Todo) (hash : String) (tGen tStamp : GoTime)
    (hf : findTodo hash chain = none) :
    handleCompleteTodo chain hash tGen tStamp = none := by
  simp only [handleCompleteTodo, hf]

/-- A handler that dereferences a missing target panics (delete). -/
theorem handleDeleteTodo_none (chain : List Todo) (hash : String) (tGen tStamp : GoTime)
    (hf : findTodo hash chain = none) :
    handleDeleteTodo chain hash tGen tStamp = none := by
  simp only [handleDeleteTodo, hf]

/-! ### C2 -/

/-- C2, the code against the claim at a concrete failing input: the hash
"zzz" matches no record of the one-record chain, yet the complete and
delete handlers do not return a typed not-found result — after writing the
404 header they dereference the nil `originalTodo` pointer and the request
dies (modelled by `none`) — and the update handler never looks the hash up
at all: it appends a record, growing the chain from 1 to 2. -/
theorem C2_notfound_behavior :
    findTodo missingHash chainW = none ∧
      handleCompleteTodo chainW missingHash timeA timeB = none ∧
      handleDeleteTodo chainW missingHash timeA timeB = none ∧
      (handleUpdateTodo chainW missingHash msgW timeA timeB).map
          (fun res => res.chain.length) = some (chainW.length + 1) := by
  have hf : findTodo missingHash chainW = none := by decide
  refine ⟨hf, handleCompleteTodo_none _ _ _ _ hf, handleDeleteTodo_none _ _ _ _ hf, ?_⟩
  rw [handleUpdateTodo_eq chainW missingHash msgW timeA timeB tipW rfl]
  simp

/-! ### C4 -/

/-- The hash of the update target fixture. -/
def updTargetHash : String := "h4"

/-- An existing, already-completed record serving as update target. -/
def updTarget : Todo :=
  { Todo.zero with Title := "x", Hash := updTargetHash, CompleteStamp := timeU }

/-- C4, counterexample: the update targets an existing record whose
`CompleteStamp` is `timeU` (non-zero), but the record the handler builds
has a zero `CompleteStamp` — the prior value is not carried forward. -/
theorem C4_counterexample :
    (∃ td ∈ [updTarget], td.Hash = updTargetHash) ∧
      (handleUpdateTodo [updTarget] updTargetHash msgW timeA timeB).map
          (fun res => res.body.CompleteStamp) = some zeroTime ∧
      updTarget.CompleteStamp ≠ zeroTime := by
  refine ⟨⟨updTarget, List.mem_singleton_self _, rfl⟩, ?_, by decide⟩
  rw [handleUpdateTodo_eq [updTarget] updTargetHash msgW timeA timeB updTarget rfl,
    generateBlock_eq]
  rfl

/-- C4 as amended: an update record gets `UpdateStamp` set to the
construction time, while its `CompleteStamp` and `DeleteStamp` are the zero
timestamp — the target's prior values are not consulted. -/
theorem C4_update_stamps (chain : List Todo) (hash : String) (m : TodoMessage)
    (tGen tUpd : GoTime) (hmem : ∃ td ∈ chain, td.Hash = hash) :
    (handleUpdateTodo chain hash m tGen tUpd).map
        (fun res => (res.body.UpdateStamp, res.body.CompleteStamp, res.body.DeleteStamp)) =
      some (tUpd, zeroTime, zeroTime) := by
  obtain ⟨td, htd, -⟩ := hmem
  cases h : chain.getLast? with
  | none =>
      rw [List.getLast?_eq_none_iff] at h
      exact absurd htd (h ▸ List.not_mem_nil td)
  | some tip =>
      rw [handleUpdateTodo_eq chain hash m tGen tUpd tip h, generateBlock_eq]
      rfl

/-- Witness for C4 at the concrete target. -/
theorem C4_update_stamps_witness :
    (handleUpdateTodo [updTarget] updTargetHash msgW timeA timeB).map
        (fun res => (res.body.UpdateStamp, res.body.CompleteStamp, res.body.DeleteStamp)) =
      some (timeB, zeroTime, zeroTime) :=
  C4_update_stamps [updTarget] updTargetHash msgW timeA timeB
    ⟨updTarget, List.mem_singleton_self _, rfl⟩

/-! ### C9 -/

/-- The scan collects, after whatever the accumulator already held, exactly
the records whose `OrigHash` matches, in chain order. -/
theorem loadTodoDetailLoop_updates (hash : String) (chain : List Todo) :
    ∀ acc : TodoDetail, (loadTodoDetailLoop hash chain acc).Updates =
      acc.Updates ++ chain.filter (fun td => td.OrigHash == hash) := by
  induction chain with
  | nil => intro acc; simp [loadTodoDetailLoop]
  | cons td rest ih =>
      intro acc
      unfold loadTodoDetailLoop
      by_cases h1 : (td.Hash == hash) = true <;> by_cases h2 : (td.OrigHash == hash) = true <;>
        simp [h1, h2, ih, List.filter_cons]

/-- When nothing in the chain matches, the scan leaves the accumulated
original untouched. -/
theorem loadTodoDetailLoop_orig_none (hash : String) (chain : List Todo)
    (acc : TodoDetail) (h : ∀ td ∈ chain, td.Hash ≠ hash) :
    (loadTodoDetailLoop hash chain acc).OriginalTodo = acc.OriginalTodo := by
  induction chain generalizing acc with
  | nil => rfl
  | cons td rest ih =>
      simp only [loadTodoDetailLoop]
      have h1 : ¬(td.Hash == hash) = true := by
        simp only [beq_iff_eq]
        exact h td (List.mem_cons_self td rest)
      rw [if_neg h1]
      by_cases h2 : (td.OrigHash == hash) = true
      · rw [if_pos h2]
        exact ih _ (fun x hx => h x (List.mem_cons_of_mem td hx))
      · rw [if_neg h2]
        exact ih _ (fun x hx => h x (List.mem_cons_of_mem td hx))

/-- When some record matches, the scan's accumulated original is a matching
record of the chain. -/
theorem loadTodoDetailLoop_orig_mem (hash : String) (chain : List Todo) :
    ∀ acc : TodoDetail, (∃ td ∈ chain, td.Hash = hash) →
      (loadTodoDetailLoop hash chain acc).OriginalTodo ∈ chain ∧
        (loadTodoDetailLoop hash chain acc).OriginalTodo.Hash = hash := by
  induction chain with
  | nil =>
      rintro acc ⟨td, htd, -⟩
      exact absurd htd (List.not_mem_nil td)
  | cons td rest ih =>
      intro acc hex
      simp only [loadTodoDetailLoop]
      by_cases hr : ∃ x ∈ rest, x.Hash = hash
      · exact ⟨List.mem_cons_of_mem td (ih _ hr).1, (ih _ hr).2⟩
      · have htd : td.Hash = hash := by
          obtain ⟨x, hx, hxh⟩ := hex
          cases List.mem_cons.mp hx with
          | inl h => exact h ▸ hxh
          | inr h => exact absurd ⟨x, h, hxh⟩ hr
        have h1 : (td.Hash == hash) = true := by
          simp [htd]
        have hnone : ∀ x ∈ rest, x.Hash ≠ hash := fun x hx hxh => hr ⟨x, hx, hxh⟩
        rw [if_pos h1]
        by_cases h2 : (td.OrigHash == hash) = true
        · rw [if_pos h2]
          rw [loadTodoDetailLoop_orig_none hash rest _ hnone]
          exact ⟨List.mem_cons_self td rest, htd⟩
        · rw [if_neg h2]
          rw [loadTodoDetailLoop_orig_none hash rest _ hnone]
          exact ⟨List.mem_cons_self td rest, htd⟩

/-- The empty string as a query hash. -/
def emptyHash : String := ""

/-- A record whose `Hash` field is the empty string. -/
def emptyHashTodo : Todo := { Todo.zero with Title := "x" }

/-- C9, counterexample to "NotFound iff no record's selfHash matches": the
query hash "" matches this record's (empty) `Hash`, yet `loadTodoDetail`
still reports not-found, because its emptiness test on the accumulated
original cannot tell "never assigned" from "assigned a record with empty
hash". -/
theorem C9_counterexample :
    loadTodoDetail emptyHash [emptyHashTodo] = none ∧
      emptyHashTodo ∈ [emptyHashTodo] ∧ emptyHashTodo.Hash = emptyHash := by
  exact ⟨by decide, List.mem_singleton_self _, rfl⟩

/-- C9 as amended: for a nonempty query hash, `loadTodoDetail` reports
not-found exactly when no record's `Hash` matches; otherwise the returned
original is a matching record of the chain and the updates are exactly the
records whose `OrigHash` equals the query, in chain order. -/
theorem C9_loadTodoDetail_spec (hash : String) (chain : List Todo) (hne : hash ≠ "") :
    (loadTodoDetail hash chain = none ↔ ∀ td ∈ chain, td.Hash ≠ hash) ∧
      (∀ d, loadTodoDetail hash chain = some d →
        d.OriginalTodo ∈ chain ∧ d.OriginalTodo.Hash = hash ∧
          d.Updates = chain.filter (fun td => td.OrigHash == hash)) := by
  constructor
  · constructor
    · intro hn td htd hh
      simp only [loadTodoDetail] at hn
      by_cases hb : ((loadTodoDetailLoop hash chain ⟨Todo.zero, []⟩).OriginalTodo.Hash == "") = true
      · have hm := loadTodoDetailLoop_orig_mem hash chain ⟨Todo.zero, []⟩ ⟨td, htd, hh⟩
        rw [hm.2] at hb
        exact hne (by simpa using hb)
      · rw [if_neg hb] at hn
        cases hn
    · intro hall
      simp only [loadTodoDetail]
      rw [loadTodoDetailLoop_orig_none hash chain ⟨Todo.zero, []⟩ hall]
      rfl
  · intro d hd
    simp only [loadTodoDetail] at hd
    by_cases hb : ((loadTodoDetailLoop hash chain ⟨Todo.zero, []⟩).OriginalTodo.Hash == "") = true
    · rw [if_pos hb] at hd
      cases hd
    · rw [if_neg hb] at hd
      have hd' := Option.some.inj hd
      by_cases hex : ∃ td ∈ chain, td.Hash = hash
      · have hm := loadTodoDetailLoop_orig_mem hash chain ⟨Todo.zero, []⟩ hex
        have hu := loadTodoDetailLoop_updates hash chain ⟨Todo.zero, []⟩
        rw [List.nil_append] at hu
        rw [← hd']
        exact ⟨hm.1, hm.2, hu⟩
      · exfalso
        have hall : ∀ td ∈ chain, td.Hash ≠ hash := fun td htd hh => hex ⟨td, htd, hh⟩
        rw [loadTodoDetailLoop_orig_none hash chain ⟨Todo.zero, []⟩ hall] at hb
        exact hb rfl

/-- Witness for C9 on a concrete chain with no matching record. -/
theorem C9_loadTodoDetail_spec_witness :
    loadTodoDetail updTargetHash [] = none :=
  (C9_loadTodoDetail_spec updTargetHash [] (by decide)).1.mpr
    (fun td htd => absurd htd (List.not_mem_nil td))

/-! ### C7 -/

/-- The chain invariants: consecutive records are linked by sequence number
and hash, every record's `Hash` is its own content hash, and the first
record has sequence number 0. -/
def chainOK (chain : List Todo) : Prop :=
  List.Chain' (fun a b => b.Index = a.Index + 1 ∧ b.PrevHash = a.Hash) chain ∧
    (∀ td ∈ chain, td.Hash = calculateHash td) ∧
    (∀ g ∈ chain.head?, g.Index = 0)

/-- The genesis record hashes itself correctly (its `Hash` was computed
before being written, and `Hash` is outside the hash input). -/
theorem genesisTodo_hash (t : GoTime) :
    (genesisTodo t).Hash = calculateHash (genesisTodo t) := by
  unfold genesisTodo
  exact calculateHash_mk _ _ _ _ _ _ _ _ _ _ _ _ _ _ _

/-- A fresh genesis chain satisfies the invariants. -/
theorem chainOK_genesis (t : GoTime) : chainOK [genesisTodo t] := by
  refine ⟨List.chain'_singleton _, ?_, ?_⟩
  · intro td htd
    rw [List.mem_singleton.mp htd]
    exact genesisTodo_hash t
  · intro g hg
    simp only [List.head?_cons, Option.mem_def, Option.some.injEq] at hg
    rw [← hg]
    rfl

/-- Appending a record that validates against the tip preserves the chain
invariants. -/
theorem chainOK_append (chain : List Todo) (tip cand : Todo)
    (h : chain.getLast? = some tip) (hv : isTodoValid cand tip = true)
    (hc : chainOK chain) : chainOK (chain ++ [cand]) := by
  obtain ⟨h1, h2, h3⟩ := hc
  obtain ⟨ha, hb, hcH⟩ := (isTodoValid_iff cand tip).mp hv
  have hnil : chain ≠ [] := by
    intro hE
    rw [hE] at h
    simp at h
  refine ⟨?_, ?_, ?_⟩
  · rw [List.chain'_append]
    refine ⟨h1, List.chain'_singleton _, ?_⟩
    intro x hx y hy
    rw [h, Option.mem_def, Option.some.injEq] at hx
    simp only [List.head?_cons, Option.mem_def, Option.some.injEq] at hy
    rw [← hx, ← hy]
    exact ⟨ha, hb⟩
  · intro td htd
    rcases List.mem_append.mp htd with hl | hr
    · exact h2 td hl
    · rw [List.mem_singleton.mp hr]
      exact hcH
  · intro g hg
    cases chain with
    | nil => exact absurd rfl hnil
    | cons a as =>
        simp only [List.cons_append, List.head?_cons, Option.mem_def, Option.some.injEq] at hg
        rw [← hg]
        exact h3 a (by simp)

/-- `storeCandidate` preserves the chain invariants whatever the candidate:
it either rejects it or appends it after validation. -/
theorem chainOK_store (c : List Todo) (tip cand : Todo) (h : c.getLast? = some tip)
    (hc : chainOK c) : chainOK (storeCandidate c tip cand) := by
  rcases storeCandidate_cases c tip cand with hs | ⟨hv, hs⟩
  · rw [hs]
    exact hc
  · rw [hs]
    exact chainOK_append c tip cand h hv hc

/-- Whatever `handleCreateTodo` returns, the new chain came from
`storeCandidate` against the tip. -/
theorem handleCreateTodo_shape (c : List Todo) (m : TodoMessage) (t : GoTime)
    (res : HandlerResult) (h : handleCreateTodo c m t = some res) :
    ∃ tip cand, c.getLast? = some tip ∧ res.chain = storeCandidate c tip cand := by
  simp only [handleCreateTodo] at h
  cases hL : c.getLast? with
  | none =>
      rw [hL] at h
      cases h
  | some tip =>
      rw [hL] at h
      refine ⟨tip, generateBlock tip m t, rfl, ?_⟩
      rw [← Option.some.inj h]
      rfl

/-- Same shape fact for `handleUpdateTodo`. -/
theorem handleUpdateTodo_shape (c : List Todo) (hash : String) (m : TodoMessage)
    (tGen tUpd : GoTime) (res : HandlerResult)
    (h : handleUpdateTodo c hash m tGen tUpd = some res) :
    ∃ tip cand, c.getLast? = some tip ∧ res.chain = storeCandidate c tip cand := by
  simp only [handleUpdateTodo] at h
  cases hL : c.getLast? with
  | none =>
      rw [hL] at h
      cases h
  | some tip =>
      rw [hL] at h
      refine ⟨tip,
        { generateBlock tip { m with OrigHash := hash } tGen with UpdateStamp := tUpd },
        rfl, ?_⟩
      rw [← Option.some.inj h]

/-- Same shape fact for `handleCompleteTodo`. -/
theorem handleCompleteTodo_shape (c : List Todo) (hash : String)
    (tGen tStamp : GoTime) (res : HandlerResult)
    (h : handleCompleteTodo c hash tGen tStamp = some res) :
    ∃ tip cand, c.getLast? = some tip ∧ res.chain = storeCandidate c tip cand := by
  simp only [handleCompleteTodo] at h
  cases hF : findTodo hash c with
  | none =>
      rw [hF] at h
      cases h
  | some orig =>
      rw [hF] at h
      cases hL : c.getLast? with
      | none =>
          rw [hL] at h
          cases h
      | some tip =>
          rw [hL] at h
          refine ⟨tip,
            { generateBlock tip ⟨orig.Title, orig.Notes, hash⟩ tGen with
              DeleteStamp := orig.DeleteStamp, UpdateStamp := tStamp,
              CompleteStamp := tStamp },
            rfl, ?_⟩
          rw [← Option.some.inj h]

/-- Same shape fact for `handleDeleteTodo`. -/
theorem handleDeleteTodo_shape (c : List Todo) (hash : String)
    (tGen tStamp : GoTime) (res : HandlerResult)
    (h : handleDeleteTodo c hash tGen tStamp = some res) :
    ∃ tip cand, c.getLast? = some tip ∧ res.chain = storeCandidate c tip cand := by
  simp only [handleDeleteTodo] at h
  cases hF : findTodo hash c with
  | none =>
      rw [hF] at h
      cases h
  | some orig =>
      rw [hF] at h
      cases hL : c.getLast? with
      | none =>
          rw [hL] at h
          cases h
      | some tip =>
          rw [hL] at h
          refine ⟨tip,
            { generateBlock tip ⟨orig.Title, orig.Notes, hash⟩ tGen with
              CompleteStamp := orig.CompleteStamp, UpdateStamp := tStamp,
              DeleteStamp := tStamp },
            rfl, ?_⟩
          rw [← Option.some.inj h]

/-- Every reachable chain satisfies the invariants. -/
theorem chainOK_reachable (chain : List Todo) (h : Reachable chain) : chainOK chain := by
  induction h with
  | genesis t => exact chainOK_genesis t
  | create c m t res hR heq ih =>
      obtain ⟨tip, cand, hL, hchain⟩ := handleCreateTodo_shape c m t res heq
      rw [hchain]
      exact chainOK_store c tip cand hL ih
  | update c hash m tGen tUpd res hR heq ih =>
      obtain ⟨tip, cand, hL, hchain⟩ := handleUpdateTodo_shape c hash m tGen tUpd res heq
      rw [hchain]
      exact chainOK_store c tip cand hL ih
  | complete c hash tGen tStamp res hR heq ih =>
      obtain ⟨tip, cand, hL, hchain⟩ := handleCompleteTodo_shape c hash tGen tStamp res heq
      rw [hchain]
      exact chainOK_store c tip cand hL ih
  | delete c hash tGen tStamp res hR heq ih =>
      obtain ⟨tip, cand, hL, hchain⟩ := handleDeleteTodo_shape c hash tGen tStamp res heq
      rw [hchain]
      exact chainOK_store c tip cand hL ih

/-- C7: every chain reachable from a fresh genesis chain through the four
mutation handlers satisfies the chain invariants: positionally consecutive
records are linked by sequence number and predecessor hash, every record's
`Hash` is the content hash of its own fields, and the first (genesis)
record has sequence number 0. -/
theorem C7_reachable_invariants (chain : List Todo) (h : Reachable chain) :
    (∀ (i : Nat) (hi : i + 1 < chain.length),
      (chain.get ⟨i + 1, hi⟩).Index = (chain.get ⟨i, Nat.lt_of_succ_lt hi⟩).Index + 1 ∧
        (chain.get ⟨i + 1, hi⟩).PrevHash = (chain.get ⟨i, Nat.lt_of_succ_lt hi⟩).Hash) ∧
      (∀ td ∈ chain, td.Hash = calculateHash td) ∧
      (∀ g ∈ chain.head?, g.Index = 0) := by
  obtain ⟨h1, h2, h3⟩ := chainOK_reachable chain h
  refine ⟨?_, h2, h3⟩
  intro i hi
  have hR := List.chain'_iff_get.mp h1 i (by omega)
  exact ⟨hR.1, hR.2⟩

/-- Witness for C7 on the concrete genesis chain. -/
theorem C7_reachable_invariants_witness :
    (genesisTodo timeT).Hash = calculateHash (genesisTodo timeT) :=
  (C7_reachable_invariants [genesisTodo timeT] (Reachable.genesis timeT)).2.1
    (genesisTodo timeT) (List.mem_singleton_self _)
